import Mathlib

/-!
Shallow embedding of the Music_Deconstructor separation/fusion core
(src/music_separator.py, src/app.py) and proofs about its
specification claims.

Modelling conventions:
* A filesystem is an association list from file path to an abstract
  content identifier (a natural number); directories are implicit.
* Paths are strings; on POSIX, os.path.join of a non-empty left part
  without a trailing slash is concatenation with a slash.
* Python str.replace (left to right, non-overlapping) and str.title
  (ASCII) are embedded as executable functions on character lists.
* The external separation engine (demucs), the librosa audio
  transforms, and the audio routines imported by src/app.py but absent
  from the sources (get_bpm, time_stretch_audio, fuse_stems) are opaque
  parameters or spec-modelled definitions.
-/

namespace MusicDeconstructor

/-! ## Filesystem and path model -/

/-- A filesystem: association list from path to abstract file content. -/
abbrev Fs : Type := List (String × Nat)

/-- File existence test, embedding os.path.exists on files. -/
def fsExists (fs : Fs) (p : String) : Bool :=
  (List.lookup p fs).isSome

/-- Removal of a file, embedding os.remove. -/
def fsRemove (fs : Fs) (p : String) : Fs :=
  List.filter (fun e => e.1 != p) fs

/-- Writing a file: overwrite any previous content at the path. -/
def fsWrite (fs : Fs) (p : String) (c : Nat) : Fs :=
  (p, c) :: fsRemove fs p

/-- Copy of a file, embedding shutil.copy (callers guard on existence of
the source). -/
def fsCopy (fs : Fs) (src dst : String) : Fs :=
  match List.lookup src fs with
  | some c => fsWrite fs dst c
  | none => fs

/-- Renaming of a file, embedding os.rename. -/
def fsRename (fs : Fs) (src dst : String) : Fs :=
  match List.lookup src fs with
  | some c => fsWrite (fsRemove fs src) dst c
  | none => fs

/-- Directory non-emptiness: some file lies under the directory.  The
sources test os.path.exists on a directory only to skip work when it is
absent; an existing empty directory leads to the same final state as the
early return, so this approximation is behavior-preserving. -/
def dirHasFiles (fs : Fs) (d : String) : Bool :=
  fs.any (fun e => (d ++ "/").data.isPrefixOf e.1.data)

/-- POSIX os.path.join for the path shapes used by this code base. -/
def pjoin (a b : String) : String := a ++ "/" ++ b

/-- Last path component, embedding Path(p).name: the characters after
the last slash. -/
def pathName (p : String) : String :=
  String.mk ((p.data.reverse.takeWhile (fun c => c ≠ '/')).reverse)

/-- Index of the last dot of a name, if any. -/
def lastDotIdx (cs : List Char) : Option Nat :=
  match cs with
  | [] => none
  | c :: rest =>
    match lastDotIdx rest with
    | some i => some (i + 1)
    | none => if c = '.' then some 0 else none

/-- Embedding of Path(p).stem: last component with its final extension
removed (a leading dot alone does not count as an extension). -/
def pathStem (p : String) : String :=
  let nm := (pathName p).data
  match lastDotIdx nm with
  | some i => if i = 0 then String.mk nm else String.mk (nm.take i)
  | none => String.mk nm

/-- Fuel-driven core of Python str.replace (left to right,
non-overlapping); fuel at least the length of the input makes it total. -/
def replaceAllAux (pat rep : List Char) : Nat → List Char → List Char
  | _, [] => []
  | 0, l => l
  | fuel + 1, c :: cs =>
    if pat.isPrefixOf (c :: cs) then
      rep ++ replaceAllAux pat rep fuel (cs.drop (pat.length - 1))
    else
      c :: replaceAllAux pat rep fuel cs

/-- Python str.replace on character lists (non-empty pattern). -/
def replaceAll (pat rep l : List Char) : List Char :=
  if pat = [] then l else replaceAllAux pat rep l.length l

/-- Python str.title for ASCII text: a letter is uppercased after a
non-letter and lowercased after a letter. -/
def pyTitleGo : Bool → List Char → List Char
  | _, [] => []
  | prevCased, c :: cs =>
    if c.isAlpha then
      (if prevCased then c.toLower else c.toUpper) :: pyTitleGo true cs
    else
      c :: pyTitleGo false cs

/-- String wrapper for str.title. -/
def pyTitle (s : String) : String := String.mk (pyTitleGo false s.data)

/-! ## Artifact listing (get_separation_results) -/

/-- Display name computed by get_separation_results:
replace underscore by space, then remove ".wav", then title-case. -/
def displayName (f : String) : String :=
  pyTitle (String.mk (replaceAll ".wav".data []
    (replaceAll "_".data " ".data f.data)))

/-- Backslash-to-slash rewriting applied to the relative result paths. -/
def slashify (s : String) : String :=
  String.mk (replaceAll "\\".data "/".data s.data)

/-- One produced stem reference: display name and relative path. -/
structure Artifact where
  name : String
  path : String
deriving DecidableEq, Repr

/-- Per-plan expected stem file names (files_to_check in the source). -/
def files_to_check (components : Nat) : List String :=
  if components = 4 then
    ["vocals.wav", "drums.wav", "bass.wav", "other.wav"]
  else if components = 6 then
    ["vocals.wav", "drums.wav", "bass.wav", "piano.wav", "guitar.wav",
     "other.wav"]
  else if components = 8 then
    ["vocals.wav", "drums.wav", "bass.wav", "other.wav",
     "lead_vocals.wav", "harmony.wav", "kick_snare.wav",
     "cymbals.wav", "piano.wav", "guitar.wav"]
  else []

/-- Per-plan relative output directory (relative_dir in the source). -/
def relative_dir (components : Nat) (model base_name : String) : String :=
  if components = 4 then pjoin model base_name
  else if components = 6 then pjoin "6_components" base_name
  else pjoin "8_components" base_name

/-- Artifact built for one stem file name. -/
def mkArtifact (rel f : String) : Artifact :=
  { name := displayName f, path := slashify (pjoin rel f) }

/-- Embedding of get_separation_results from src/music_separator.py:
for a known stem count, the existing files of the plan list under the
canonical output directory of the job; otherwise the empty list. -/
def get_separation_results (fs : Fs) (input_file output_dir : String)
    (components : Nat) (model : String) : List Artifact :=
  if components = 4 ∨ components = 6 ∨ components = 8 then
    let base_name := pathStem input_file
    let rel := relative_dir components model base_name
    let track_dir := pjoin output_dir rel
    (files_to_check components).filterMap (fun f =>
      if fsExists fs (pjoin track_dir f) then some (mkArtifact rel f)
      else none)
  else []

/-- Display-name formula as the claim words it: underscores replaced by
spaces, the ".wav" suffix removed, then title-casing applied.  Stated
for comparison (refinement) against displayName, which is taken from the
source. -/
def stripSuffix (pat cs : List Char) : List Char :=
  if pat.isSuffixOf cs then cs.take (cs.length - pat.length) else cs

/-- Modelled from the claim wording, for comparison with displayName. -/
def displaySpecName (f : String) : String :=
  pyTitle (String.mk (stripSuffix ".wav".data
    (replaceAll "_".data " ".data f.data)))

/-- Python str.lower for ASCII text. -/
def pyLower (s : String) : String :=
  String.mk (s.data.map Char.toLower)

/-- Stem-selection test of the fusion route (fuse_tracks in src/app.py):
the first artifact whose lowercased display name equals the role key. -/
def fusionFindStem (stems : List Artifact) (role : String) :
    Option Artifact :=
  stems.find? (fun s => pyLower s.name == role)

/-! ## Engine invocation and the event stream -/

/-- Result of one engine subprocess run: the diagnostic lines read from
its stderr stream, the exit code, and the captured stderr text. -/
structure EngineResult where
  lines : List String
  rc : Int
  stderr : String

/-- The raise condition of _run_demucs: a CalledProcessError is raised
exactly when the exit code is non-zero and not the kill signal -9. -/
def runDemucsRaises (rc : Int) : Bool :=
  (rc != 0) && (rc != -9)

/-- A propagating CalledProcessError: exit code and captured stderr. -/
structure EngErr where
  rc : Int
  stderr : String
deriving DecidableEq, Repr

/-- Events visible to the progress consumer: the payloads of the
progress-callback lines, and the completion sentinel appended by
generate_progress in src/app.py. -/
inductive Ev
  | line (s : String)
  | complete (uniqueName origName : String)
deriving DecidableEq, Repr

/-- An error event is a line starting with the word ERROR. -/
def isErrorEv : Ev → Bool
  | .line s => "ERROR".data.isPrefixOf s.data
  | .complete _ _ => false

/-- Completion-sentinel recognizer. -/
def isCompleteEv : Ev → Bool
  | .complete _ _ => true
  | _ => false

/-- Number of events satisfying a recognizer. -/
def countP (p : Ev → Bool) (evs : List Ev) : Nat :=
  (evs.filter p).length

/-- Event/error outcome of one _run_demucs generator consumed to
exhaustion: all lines are yielded (the read loop runs before
communicate), then the raise condition is checked. -/
def runDemucsResult (eng : EngineResult) : List Ev × Option EngErr :=
  (eng.lines.map Ev.line,
    if runDemucsRaises eng.rc then some ⟨eng.rc, eng.stderr⟩ else none)

/-- One engine invocation performed by the pipeline: the model passed on
the demucs command line, the optional two-stems target, and the job key
it registers under. -/
structure Invocation where
  model : String
  twoStems : Option String
  jobId : String
deriving DecidableEq, Repr

/-- Abstract engine behavior and its filesystem effects for one
pipeline run; the engine itself is an external black box. -/
structure PipelineEnv where
  inputExists : Bool
  pass1 : EngineResult
  otherExists : Bool
  trackDirExists : Bool
  stemExists : String → Bool
  pass2 : String → EngineResult

/-- Outcome of one _separate_N_components helper: the events it yields,
the engine invocations it performs, whether the assembly step ran, and
the exception propagating out of it, if any. -/
structure SepOutcome where
  events : List Ev
  invocations : List Invocation
  assembled : Bool
  err : Option EngErr

/-- Embedding of _separate_4_components: a single engine pass; the
enhancement step prints to the console only, producing no events. -/
def sep4Body (model jobId : String) (env : PipelineEnv) : SepOutcome :=
  let r := runDemucsResult env.pass1
  { events := r.1, invocations := [⟨model, none, jobId⟩],
    assembled := false, err := r.2 }

/-- Embedding of _separate_6_components.  The source milestone strings
quote the word other; the quotes are omitted here. -/
def sep6Body (model jobId : String) (env : PipelineEnv)
    (enhance : Bool) : SepOutcome :=
  let pre := [Ev.line "Running 6-component separation (Pass 1/2)..."]
  let r1 := runDemucsResult env.pass1
  let inv1 : Invocation := ⟨model, none, jobId⟩
  match r1.2 with
  | some e =>
    { events := pre ++ r1.1, invocations := [inv1],
      assembled := false, err := some e }
  | none =>
    if env.otherExists then
      let mid := [Ev.line "Further separating other component (Pass 2/2)..."]
      let r2 := runDemucsResult (env.pass2 "other")
      let inv2 : Invocation := ⟨model, some "other", jobId ++ "-other"⟩
      match r2.2 with
      | some e =>
        { events := pre ++ r1.1 ++ mid ++ r2.1,
          invocations := [inv1, inv2], assembled := false, err := some e }
      | none =>
        { events := pre ++ r1.1 ++ mid ++ r2.1 ++
            (if enhance then [Ev.line "Enhancing audio quality..."] else []),
          invocations := [inv1, inv2], assembled := true, err := none }
    else
      { events := pre ++ r1.1, invocations := [inv1],
        assembled := false, err := none }

/-- Source stems split by the second pass of the 8-component plan, in
the iteration order of the stems_to_separate dictionary. -/
def stems_to_separate : List String := ["vocals", "drums", "other"]

/-- Pass-2 loop of _separate_8_components: one engine run per present
source stem, aborting on the first engine failure; absent stems are
skipped. -/
def sep8Loop (jobId : String) (env : PipelineEnv) :
    List String → List Ev × List Invocation × Option EngErr
  | [] => ([], [], none)
  | stem :: rest =>
    if env.stemExists stem then
      let r := runDemucsResult (env.pass2 stem)
      let inv : Invocation := ⟨"htdemucs_ft", some stem, jobId ++ "-" ++ stem⟩
      match r.2 with
      | some e => (r.1, [inv], some e)
      | none =>
        let rec' := sep8Loop jobId env rest
        (r.1 ++ rec'.1, inv :: rec'.2.1, rec'.2.2)
    else sep8Loop jobId env rest

/-- Embedding of _separate_8_components: the model is pinned to
htdemucs_ft for every invocation; the caller-requested model is not a
parameter of this helper, matching the source signature. -/
def sep8Body (jobId : String) (env : PipelineEnv)
    (enhance : Bool) : SepOutcome :=
  let best := "htdemucs_ft"
  let r1 := runDemucsResult env.pass1
  let inv1 : Invocation := ⟨best, none, jobId⟩
  match r1.2 with
  | some e =>
    { events := r1.1, invocations := [inv1], assembled := false,
      err := some e }
  | none =>
    if env.trackDirExists then
      let mid := [Ev.line "Pass 2/2: Advanced component separation..."]
      let l := sep8Loop jobId env stems_to_separate
      match l.2.2 with
      | some e =>
        { events := r1.1 ++ mid ++ l.1, invocations := inv1 :: l.2.1,
          assembled := false, err := some e }
      | none =>
        { events := r1.1 ++ mid ++ l.1 ++
            (if enhance then [Ev.line "Enhancing audio quality..."] else []),
          invocations := inv1 :: l.2.1, assembled := true, err := none }
    else
      { events := r1.1, invocations := [inv1], assembled := false,
        err := none }

/-- Consumer-visible outcome of one separate_audio_ultra run. -/
structure UltraOutcome where
  events : List Ev
  invocations : List Invocation
  assembled : Bool
deriving DecidableEq, Repr

/-- Dispatch on the stem count inside the try block of
separate_audio_ultra: the _separate_N_components helper for a known
count; for an unknown count none of the branches runs, so no events, no
invocations and no exception arise from this part. -/
def sepBody (components : Nat) (model jobId : String)
    (env : PipelineEnv) (enhance : Bool) : SepOutcome :=
  if components = 4 then sep4Body model jobId env
  else if components = 6 then sep6Body model jobId env enhance
  else if components = 8 then sep8Body jobId env enhance
  else { events := [], invocations := [], assembled := false,
         err := none }

/-- Message of the UnboundLocalError raised by
print_ultra_components_info on an unknown stem count: its final print
references track_dir, which is assigned only in the 4/6/8 branches.  The
exact wording is interpreter-dependent; the embedding fixes one and the
theorems treat it opaquely. -/
def unboundLocalMsg : String :=
  "local variable track_dir referenced before assignment"

/-- Embedding of separate_audio_ultra driven with a progress callback.
All engine failures raised by _run_demucs are caught here; a
CalledProcessError whose exit code is not -9 becomes an ERROR event
(the raise itself occurs only for such codes, so the inner guard is
never false at the catch).  When no engine pass raised, the function
calls print_ultra_components_info; for an unknown stem count that call
raises UnboundLocalError (track_dir unassigned), which the generic
except handler turns into an unexpected-error event.  The source
input-missing message quotes the file name; the quotes are omitted
here. -/
def separate_audio_ultra (input_file : String) (components : Nat)
    (model : String) (enhance : Bool) (env : PipelineEnv) : UltraOutcome :=
  if env.inputExists = false then
    { events := [Ev.line ("ERROR: Input file not found: " ++ input_file)],
      invocations := [], assembled := false }
  else
    let o := sepBody components model (pathName input_file) env enhance
    match o.err with
    | none =>
      if components = 4 ∨ components = 6 ∨ components = 8 then
        { events := o.events, invocations := o.invocations,
          assembled := o.assembled }
      else
        { events := o.events ++
            [Ev.line ("ERROR: An unexpected error occurred: " ++
              unboundLocalMsg)],
          invocations := o.invocations, assembled := o.assembled }
    | some e =>
      { events := o.events ++
          (if e.rc != -9 then
            [Ev.line ("ERROR: Demucs processing error: " ++ e.stderr)]
          else []),
        invocations := o.invocations, assembled := o.assembled }

/-- Embedding of generate_progress from src/app.py: stream the pipeline
events, then the completion sentinel.  separate_audio_ultra catches
every exception internally, so the except clause of the route is
unreachable and the sentinel is appended whenever iteration ends. -/
def generate_progress (input_file uniqueName origName : String)
    (components : Nat) (model : String) (enhance : Bool)
    (env : PipelineEnv) : List Ev :=
  (separate_audio_ultra input_file components model enhance env).events ++
    [Ev.complete uniqueName origName]

/-! ## Job registry trace model (_run_demucs) -/

/-- One observable step of the execution of the _run_demucs generator. -/
inductive RStep
  | register (key : String)
  | yieldLine (s : String)
  | raiseErr (rc : Int) (stderr : String)
  | deregister (key : String)
  | kill
deriving DecidableEq, Repr

/-- How the consumer drives the generator: draining it to exhaustion, or
abandoning it after n lines (GeneratorExit thrown at the next yield). -/
inductive RunOutcome
  | exhausted
  | abandonedAt (n : Nat)
deriving DecidableEq, Repr

/-- Diagnostic lines actually yielded under the given outcome. -/
def yieldedLines : RunOutcome → List String → List String
  | .exhausted, ls => ls
  | .abandonedAt n, ls => ls.take n

/-- Step trace of one _run_demucs generator run.  The body registers the
process right after spawning it, before the read loop; the finally block
always deregisters the job key and kills the process if poll() still
reports it live (the stillLive flag).  A falsy (empty) job id in the
source is modelled as none. -/
def runDemucsSteps (jobId : Option String) (eng : EngineResult)
    (outcome : RunOutcome) (stillLive : Bool) : List RStep :=
  (match jobId with | some k => [RStep.register k] | none => []) ++
  (yieldedLines outcome eng.lines).map RStep.yieldLine ++
  (match outcome with
   | .exhausted =>
     if runDemucsRaises eng.rc then [RStep.raiseErr eng.rc eng.stderr]
     else []
   | .abandonedAt _ => []) ++
  (match jobId with | some k => [RStep.deregister k] | none => []) ++
  (if stillLive then [RStep.kill] else [])

/-- The process registry ACTIVE_PROCESSES: job key to process id. -/
abbrev Registry : Type := List (String × Nat)

/-- Dictionary assignment: overwrite any prior entry for the key. -/
def regInsert (reg : Registry) (k : String) (pid : Nat) : Registry :=
  (k, pid) :: List.filter (fun e => e.1 != k) reg

/-- Guarded del: drop the entry for the key if present. -/
def regErase (reg : Registry) (k : String) : Registry :=
  List.filter (fun e => e.1 != k) reg

/-- Effect of one step on the registry. -/
def applyRStep (pid : Nat) (reg : Registry) : RStep → Registry
  | .register k => regInsert reg k pid
  | .deregister k => regErase reg k
  | _ => reg

/-- Registry state after a step sequence. -/
def runRegistry (pid : Nat) (reg : Registry) (steps : List RStep) :
    Registry :=
  steps.foldl (applyRStep pid) reg

/-- Whether the subprocess is still alive once the generator has fully
unwound: it was live at the finally block and no kill step ran. -/
def procLiveAfter (stillLive : Bool) (steps : List RStep) : Prop :=
  stillLive = true ∧ RStep.kill ∉ steps

/-! ## Enhancement pass model -/

/-- Opaque audio semantics of the librosa transforms: whether a content
trims to an empty signal at the configured silence threshold, and the
content produced by the per-type enhancement chain. -/
structure AudioSem where
  trimEmpty : Nat → Bool
  enhanced : String → Nat → Nat

/-- Stem-name to enhancement-type mapping (_get_enhancement_map). -/
def _get_enhancement_map : List (String × String) :=
  [("vocals", "vocals"), ("drums", "drums"), ("bass", "bass"),
   ("other", "other"), ("piano", "other"), ("guitar", "other"),
   ("lead_vocals", "vocals"), ("harmony", "vocals"),
   ("kick_snare", "drums"), ("cymbals", "drums")]

/-- Embedding of enhance_audio: load the input (a missing file raises
inside the try block, so the function returns false having written
nothing); if the trimmed signal is empty, return false without creating
an output file; otherwise write the enhanced output and return true. -/
def enhance_audio (sem : AudioSem) (fs : Fs)
    (input output enhancement_type : String) : Fs × Bool :=
  match List.lookup input fs with
  | none => (fs, false)
  | some c =>
    if sem.trimEmpty c then (fs, false)
    else (fsWrite fs output (sem.enhanced enhancement_type c), true)

/-- Shared per-stem body of the three enhance_N_components loops: when
the stem file exists, run enhance_audio into a temporary path; on
success delete the original and rename the temporary over it; on
failure delete the original (the source considers it empty) and remove
any leftover temporary file. -/
def enhanceStem (sem : AudioSem) (track_dir : String) (fs : Fs)
    (stem_name : String) : Fs :=
  let filename := stem_name ++ ".wav"
  let input_path := pjoin track_dir filename
  if fsExists fs input_path then
    let temp_path := pjoin track_dir ("temp_enhanced_" ++ filename)
    let etype := (List.lookup stem_name _get_enhancement_map).getD "other"
    let r := enhance_audio sem fs input_path temp_path etype
    if r.2 then
      fsRename (fsRemove r.1 input_path) temp_path input_path
    else
      let fs2 := fsRemove r.1 input_path
      if fsExists fs2 temp_path then fsRemove fs2 temp_path else fs2
  else fs

/-- Embedding of enhance_4_components. -/
def enhance_4_components (sem : AudioSem) (fs : Fs)
    (input_file output_dir model : String) : Fs :=
  let track_dir := pjoin (pjoin output_dir model) (pathStem input_file)
  if dirHasFiles fs track_dir then
    ["vocals", "drums", "bass", "other"].foldl (enhanceStem sem track_dir) fs
  else fs

/-- Embedding of enhance_6_components. -/
def enhance_6_components (sem : AudioSem) (fs : Fs)
    (input_file output_dir : String) : Fs :=
  let track_dir := pjoin (pjoin output_dir "6_components") (pathStem input_file)
  if dirHasFiles fs track_dir then
    ["vocals", "drums", "bass", "piano", "guitar", "other"].foldl
      (enhanceStem sem track_dir) fs
  else fs

/-- Embedding of enhance_8_components, iterating the keys of the
enhancement map in insertion order. -/
def enhance_8_components (sem : AudioSem) (fs : Fs)
    (input_file output_dir : String) : Fs :=
  let track_dir := pjoin (pjoin output_dir "8_components") (pathStem input_file)
  if dirHasFiles fs track_dir then
    (_get_enhancement_map.map (fun e => e.1)).foldl
      (enhanceStem sem track_dir) fs
  else fs

/-! ## Fusion route model (fuse_tracks) -/

/-- One role assignment of the fusion payload.  An empty song id encodes
a missing selection (falsy in the source). -/
structure StemAssign where
  song_id : String
  volume : Int
  is_muted : Bool
deriving DecidableEq, Repr

/-- Configuration and external oracles of one fuse_tracks request. -/
structure FuseCfg where
  upload_folder : String
  output_folder : String
  temp_folder : String
  model_map : String → String
  components_map : String → Nat
  bpm : String → Nat
  stretchWrites : String → Bool
  stretchContent : Nat → Nat
  fuse_ok : Bool
  fusedContent : Nat
  fused_name : String

/-- Terminal outcome of the fusion route. -/
inductive FuseResult
  | masterNotFound
  | noMasterBpm
  | nothingToFuse
  | fuseFailed
  | fused (relPath : String)
deriving DecidableEq, Repr

/-- Modelled from the spec: time_stretch_audio is imported by src/app.py
from music_separator but absent from the sources.  Per section 4.6 it
writes the stretched output file, and fails writing nothing when the
source tempo is undetectable (the stretchWrites oracle). -/
def time_stretch_audio (cfg : FuseCfg) (fs : Fs)
    (input output : String) : Fs :=
  if cfg.stretchWrites input then
    match List.lookup input fs with
    | some c => fsWrite fs output (cfg.stretchContent c)
    | none => fs
  else fs

/-- Modelled from the spec: fuse_stems is imported by src/app.py from
music_separator but absent from the sources.  Per section 4.7 steps 5
and 6 it overlays the collected scratch stems into one exported file and
reports success; the fuse_ok oracle decides the outcome. -/
def fuse_stems (cfg : FuseCfg) (fs : Fs) (output : String) : Fs × Bool :=
  if cfg.fuse_ok then (fsWrite fs output cfg.fusedContent, true)
  else (fs, false)

/-- Per-role body of the stretch-and-collect loop of fuse_tracks: skip
missing or muted selections; look the stem up by lowercased display
name; skip absent stems; copy when the source job is the master, stretch
otherwise; record the scratch path and volume. -/
def fuseCollect (cfg : FuseCfg) (master_id : String)
    (st : Fs × List (String × Int)) (entry : String × StemAssign) :
    Fs × List (String × Int) :=
  let stem_name := entry.1
  let sd := entry.2
  if sd.song_id = "" ∨ sd.is_muted then st
  else
    let input_path := pjoin cfg.upload_folder sd.song_id
    let all_stems := get_separation_results st.1 input_path
      cfg.output_folder (cfg.components_map sd.song_id)
      (cfg.model_map sd.song_id)
    match fusionFindStem all_stems stem_name with
    | none => st
    | some s =>
      let orig := pjoin cfg.output_folder s.path
      if fsExists st.1 orig then
        let scratch := pjoin cfg.temp_folder
          (sd.song_id ++ "_" ++ stem_name ++ ".wav")
        let fs2 :=
          if sd.song_id = master_id then fsCopy st.1 orig scratch
          else time_stretch_audio cfg st.1 orig scratch
        (fs2, st.2 ++ [(scratch, sd.volume)])
      else st

/-- Embedding of the fuse_tracks route of src/app.py.  The scratch
cleanup loop runs only on the success path of fuse_stems, exactly as in
the source. -/
def fuse_tracks (cfg : FuseCfg) (fs : Fs)
    (fusion_map : List (String × StemAssign)) (master_id : String) :
    Fs × FuseResult :=
  if fsExists fs (pjoin cfg.upload_folder master_id) = false then
    (fs, FuseResult.masterNotFound)
  else if cfg.bpm (pjoin cfg.upload_folder master_id) = 0 then
    (fs, FuseResult.noMasterBpm)
  else
    let col := fusion_map.foldl (fuseCollect cfg master_id) (fs, [])
    if col.2 = [] then (col.1, FuseResult.nothingToFuse)
    else
      let rel := pjoin "fused_tracks" cfg.fused_name
      let full := pjoin cfg.output_folder rel
      let fr := fuse_stems cfg col.1 full
      if fr.2 then
        (col.2.foldl (fun acc p => fsRemove acc p.1) fr.1,
          FuseResult.fused rel)
      else (fr.1, FuseResult.fuseFailed)

/-! ## Concrete environments used by counterexamples and witnesses -/

/-- Engine environment: pass 1 fails with exit code 1 and stderr boom. -/
def envFail : PipelineEnv :=
  { inputExists := true, pass1 := ⟨["l1"], 1, "boom"⟩,
    otherExists := false, trackDirExists := false,
    stemExists := fun _ => false, pass2 := fun _ => ⟨[], 0, ""⟩ }

/-- Engine environment: every pass succeeds, every file is present. -/
def envIdle : PipelineEnv :=
  { inputExists := true, pass1 := ⟨["p"], 0, ""⟩,
    otherExists := true, trackDirExists := true,
    stemExists := fun _ => true, pass2 := fun _ => ⟨["q"], 0, ""⟩ }

/-- Engine environment like envIdle but with the other stem absent
after pass 1. -/
def envNoOther : PipelineEnv :=
  { envIdle with otherExists := false }

/-- Audio semantics under which every stem trims to an empty signal. -/
def semAllSilent : AudioSem :=
  { trimEmpty := fun _ => true, enhanced := fun _ c => c }

/-- A 4-component output holding a single vocals stem. -/
def fsC1 : Fs := [("out/htdemucs/song/vocals.wav", 7)]

/-- Uploaded master recording plus its separated vocals stem. -/
def fsC2 : Fs :=
  [("uploads/m.wav", 3), ("output_demucs/htdemucs/m/vocals.wav", 5)]

/-- Fusion configuration whose fuse_stems call fails. -/
def cfgC2 : FuseCfg :=
  { upload_folder := "uploads", output_folder := "output_demucs",
    temp_folder := "temp_fusion", model_map := fun _ => "htdemucs",
    components_map := fun _ => 4, bpm := fun _ => 120,
    stretchWrites := fun _ => true, stretchContent := fun c => c + 100,
    fuse_ok := false, fusedContent := 99, fused_name := "fused_x.mp3" }

/-- Fusion configuration identical to cfgC2 but with fuse_stems
succeeding. -/
def cfgC2ok : FuseCfg :=
  { cfgC2 with fuse_ok := true }

end MusicDeconstructor

/-! ## Theorems -/

namespace MusicDeconstructor

set_option maxRecDepth 8000

lemma replaceAllAux_single (c d : Char) :
    ∀ (fuel : Nat) (l : List Char), l.length ≤ fuel →
      replaceAllAux [c] [d] fuel l =
        l.map (fun x => if x = c then d else x) := by
  intro fuel
  induction fuel with
  | zero =>
    intro l h
    have : l = [] := List.eq_nil_of_length_eq_zero (Nat.le_zero.mp h)
    subst this
    rfl
  | succ n ih =>
    intro l h
    match l with
    | [] => rfl
    | x :: xs =>
      simp only [replaceAllAux, List.isPrefixOf, List.isPrefixOf_nil_left,
        Bool.and_true]
      by_cases hx : c = x
      · subst hx
        simp only [beq_self_eq_true, if_pos]
        simp only [List.length_cons, Nat.succ_le_succ_iff] at h
        simp [List.map, ih xs h]
      · have hb : (c == x) = false := beq_eq_false_iff_ne.mpr hx
        simp only [hb, Bool.false_eq_true, if_neg, List.map]
        simp only [List.length_cons, Nat.succ_le_succ_iff] at h
        rw [ih xs h]
        simp [Ne.symm hx]

lemma replaceAll_single (c d : Char) (l : List Char) :
    replaceAll [c] [d] l = l.map (fun x => if x = c then d else x) := by
  simp [replaceAll, replaceAllAux_single c d l.length l (Nat.le_refl _)]

lemma slashify_no_backslash (s : String) : '\\' ∉ (slashify s).data := by
  have hd : "\\".data = ['\\'] := rfl
  have hs : "/".data = ['/'] := rfl
  simp only [slashify, hd, hs, replaceAll_single]
  intro hmem
  rcases List.mem_map.mp hmem with ⟨x, _, hx⟩
  by_cases h : x = '\\' <;> simp [h] at hx

lemma get_separation_results_eq (fs : Fs)
    (input_file output_dir model : String) (components : Nat)
    (hc : components = 4 ∨ components = 6 ∨ components = 8) :
    get_separation_results fs input_file output_dir components model =
      (files_to_check components).filterMap (fun f =>
        if fsExists fs (pjoin (pjoin output_dir
            (relative_dir components model (pathStem input_file))) f) then
          some (mkArtifact
            (relative_dir components model (pathStem input_file)) f)
        else none) := by
  unfold get_separation_results
  rw [if_pos hc]

lemma displayName_eq_spec_of_mem (c : Nat)
    (hc : c = 4 ∨ c = 6 ∨ c = 8) :
    ∀ f ∈ files_to_check c, displayName f = displaySpecName f := by
  rcases hc with rfl | rfl | rfl <;> decide

lemma mem_results_elim (fs : Fs) (input_file output_dir model : String)
    (components : Nat) (a : Artifact)
    (h : a ∈ get_separation_results fs input_file output_dir components
      model) :
    ∃ f ∈ files_to_check components,
      a = mkArtifact (relative_dir components model (pathStem input_file))
        f := by
  by_cases hc : components = 4 ∨ components = 6 ∨ components = 8
  · rw [get_separation_results_eq fs input_file output_dir model components
      hc, List.mem_filterMap] at h
    rcases h with ⟨f, hf, hsome⟩
    refine ⟨f, hf, ?_⟩
    split at hsome
    · exact (Option.some.inj hsome).symm
    · exact absurd hsome (by simp)
  · unfold get_separation_results at h
    rw [if_neg hc] at h
    exact absurd h (List.not_mem_nil a)

/-- C8: for every stem count in the set of 4, 6 and 8, the artifact
listing returns exactly the pairs whose filename is in the declared plan
list of that count and whose file exists on disk under the canonical
output directory of the job; it neither fabricates an entry for a
missing file nor includes a filename outside the declared list. -/
theorem C8_artifact_listing (fs : Fs)
    (input_file output_dir model : String) (components : Nat)
    (hc : components = 4 ∨ components = 6 ∨ components = 8)
    (a : Artifact) :
    a ∈ get_separation_results fs input_file output_dir components
      model ↔
      ∃ f ∈ files_to_check components,
        fsExists fs (pjoin (pjoin output_dir
          (relative_dir components model (pathStem input_file))) f) =
          true ∧
        a = mkArtifact (relative_dir components model (pathStem input_file))
          f := by
  rw [get_separation_results_eq fs input_file output_dir model components
    hc]
  rw [List.mem_filterMap]
  constructor
  · rintro ⟨f, hf, hsome⟩
    refine ⟨f, hf, ?_⟩
    split at hsome
    · next hex => exact ⟨hex, (Option.some.inj hsome).symm⟩
    · exact absurd hsome (by simp)
  · rintro ⟨f, hf, hex, rfl⟩
    exact ⟨f, hf, by simp [hex]⟩

/-- Witness instantiating C8 on a concrete one-stem filesystem. -/
theorem C8_artifact_listing_witness :
    ((4 = 4 ∨ 4 = 6 ∨ 4 = 8) ∧
      (Artifact.mk "Vocals" "htdemucs/song/vocals.wav" ∈
          get_separation_results [("out/htdemucs/song/vocals.wav", 1)]
            "up/song.wav" "out" 4 "htdemucs" ↔
        ∃ f ∈ files_to_check 4,
          fsExists [("out/htdemucs/song/vocals.wav", 1)] (pjoin (pjoin "out"
            (relative_dir 4 "htdemucs" (pathStem "up/song.wav"))) f) =
            true ∧
          Artifact.mk "Vocals" "htdemucs/song/vocals.wav" =
            mkArtifact (relative_dir 4 "htdemucs" (pathStem "up/song.wav"))
              f)) :=
  ⟨by decide,
    C8_artifact_listing [("out/htdemucs/song/vocals.wav", 1)] "up/song.wav"
      "out" "htdemucs" 4 (by decide)
      (Artifact.mk "Vocals" "htdemucs/song/vocals.wav")⟩

/-- C10: every artifact returned by the listing carries the display name
obtained from its stem filename by replacing underscores with spaces,
removing the .wav suffix and title-casing; its relative path holds no
backslash; and the fusion route selects an artifact for a role key only
when the key equals the lowercased display name. -/
theorem C10_display_and_role_key (fs : Fs)
    (input_file output_dir model : String) (components : Nat)
    (a : Artifact)
    (h : a ∈ get_separation_results fs input_file output_dir components
      model) :
    (∃ f ∈ files_to_check components, a.name = displaySpecName f) ∧
    '\\' ∉ a.path.data ∧
    (∀ role, fusionFindStem
        (get_separation_results fs input_file output_dir components model)
        role = some a → role = pyLower a.name) := by
  obtain ⟨f, hf, rfl⟩ :=
    mem_results_elim fs input_file output_dir model components a h
  have hc : components = 4 ∨ components = 6 ∨ components = 8 := by
    by_contra hnc
    rw [show files_to_check components = [] from by
      unfold files_to_check
      rcases Nat.decEq components 4 with h4 | h4
      · rcases Nat.decEq components 6 with h6 | h6
        · rcases Nat.decEq components 8 with h8 | h8
          · simp [h4, h6, h8]
          · exact absurd (Or.inr (Or.inr h8)) hnc
        · exact absurd (Or.inr (Or.inl h6)) hnc
      · exact absurd (Or.inl h4) hnc] at hf
    exact absurd hf (List.not_mem_nil f)
  refine ⟨⟨f, hf, displayName_eq_spec_of_mem components hc f hf⟩, ?_, ?_⟩
  · exact slashify_no_backslash _
  · intro role hfind
    have hp := List.find?_some hfind
    exact (eq_of_beq hp).symm

/-- Witness instantiating C10 on an 8-component lead-vocals artifact:
the display name is Lead Vocals and only the role key given in lowercase
with a space selects it. -/
theorem C10_display_and_role_key_witness :
    (Artifact.mk "Lead Vocals" "8_components/song/lead_vocals.wav" ∈
      get_separation_results
        [("out/8_components/song/lead_vocals.wav", 1)]
        "up/song.wav" "out" 8 "m") ∧
    ((∃ f ∈ files_to_check 8,
        (Artifact.mk "Lead Vocals"
          "8_components/song/lead_vocals.wav").name = displaySpecName f) ∧
      '\\' ∉ (Artifact.mk "Lead Vocals"
        "8_components/song/lead_vocals.wav").path.data ∧
      (∀ role, fusionFindStem
          (get_separation_results
            [("out/8_components/song/lead_vocals.wav", 1)]
            "up/song.wav" "out" 8 "m") role =
          some (Artifact.mk "Lead Vocals"
            "8_components/song/lead_vocals.wav") →
        role = pyLower (Artifact.mk "Lead Vocals"
          "8_components/song/lead_vocals.wav").name)) :=
  ⟨by decide,
    C10_display_and_role_key
      [("out/8_components/song/lead_vocals.wav", 1)]
      "up/song.wav" "out" "m" 8
      (Artifact.mk "Lead Vocals" "8_components/song/lead_vocals.wav")
      (by decide)⟩

end MusicDeconstructor

namespace MusicDeconstructor

lemma lookup_fsRemove_self (fs : Fs) (p : String) :
    List.lookup p (fsRemove fs p) = none := by
  induction fs with
  | nil => rfl
  | cons e rest ih =>
    unfold fsRemove at *
    by_cases h : e.1 = p
    · simp only [List.filter, h, bne_self_eq_false]
      exact ih
    · have hb : (e.1 != p) = true := bne_iff_ne.mpr h
      simp only [List.filter, hb]
      rw [List.lookup]
      have : (p == e.1) = false := beq_eq_false_iff_ne.mpr (Ne.symm h)
      simp only [this]
      exact ih

lemma fsExists_fsRemove_self (fs : Fs) (p : String) :
    fsExists (fsRemove fs p) p = false := by
  unfold fsExists
  rw [lookup_fsRemove_self]
  rfl

lemma fsExists_fsRemove_of_not (fs : Fs) (p q : String)
    (h : fsExists fs p = false) : fsExists (fsRemove fs q) p = false := by
  induction fs with
  | nil => rfl
  | cons e rest ih =>
    unfold fsExists fsRemove at *
    by_cases hq : e.1 = q
    · have hb : (e.1 != q) = false := by simp [hq]
      simp only [List.filter, hb]
      apply ih
      rw [List.lookup] at h
      by_cases hp : p = e.1
      · exfalso
        simp [hp] at h
      · have : (p == e.1) = false := beq_eq_false_iff_ne.mpr hp
        simpa [this] using h
    · have hb : (e.1 != q) = true := bne_iff_ne.mpr hq
      simp only [List.filter, hb]
      rw [List.lookup] at h ⊢
      by_cases hp : p = e.1
      · exfalso
        simp [hp] at h
      · have hpe : (p == e.1) = false := beq_eq_false_iff_ne.mpr hp
        simp only [hpe] at h ⊢
        exact ih h

/-- C1 counterexample: a vocals stem trimming to an empty signal makes
enhance_audio report a no-op without writing, yet enhance_4_components
deletes the original stem file instead of retaining it. -/
theorem C1_counterexample :
    (enhance_audio semAllSilent fsC1 "out/htdemucs/song/vocals.wav"
        "out/htdemucs/song/temp_enhanced_vocals.wav" "vocals" =
      (fsC1, false)) ∧
    fsExists (enhance_4_components semAllSilent fsC1 "up/song.wav" "out"
      "htdemucs") "out/htdemucs/song/vocals.wav" = false := by
  decide

/-- C1 as amended: for every stem file whose audio trims to an empty
signal, enhance_audio returns false without writing an output, and the
enhancement pass then deletes the original stem file (it is not
retained). -/
theorem C1_corrected (sem : AudioSem) (fs : Fs)
    (track_dir stem_name etype out : String) (c : Nat)
    (hl : List.lookup (pjoin track_dir (stem_name ++ ".wav")) fs = some c)
    (hsilent : sem.trimEmpty c = true) :
    enhance_audio sem fs (pjoin track_dir (stem_name ++ ".wav")) out
      etype = (fs, false) ∧
    fsExists (enhanceStem sem track_dir fs stem_name)
      (pjoin track_dir (stem_name ++ ".wav")) = false := by
  have h1 : ∀ out' etype',
      enhance_audio sem fs (pjoin track_dir (stem_name ++ ".wav")) out'
        etype' = (fs, false) := by
    intro out' etype'
    unfold enhance_audio
    rw [hl]
    simp [hsilent]
  refine ⟨h1 out etype, ?_⟩
  have hex : fsExists fs (pjoin track_dir (stem_name ++ ".wav")) = true := by
    unfold fsExists
    rw [hl]
    rfl
  unfold enhanceStem
  simp only [hex, if_true, h1, Bool.false_eq_true, if_false]
  split
  · exact fsExists_fsRemove_of_not _ _ _ (fsExists_fsRemove_self fs _)
  · exact fsExists_fsRemove_self fs _

/-- Witness instantiating C1_corrected on the concrete silent stem. -/
theorem C1_corrected_witness :
    (List.lookup (pjoin "out/htdemucs/song" ("vocals" ++ ".wav")) fsC1 =
      some 7 ∧ semAllSilent.trimEmpty 7 = true) ∧
    (enhance_audio semAllSilent fsC1
        (pjoin "out/htdemucs/song" ("vocals" ++ ".wav")) "tmp.wav"
        "vocals" = (fsC1, false) ∧
      fsExists (enhanceStem semAllSilent "out/htdemucs/song" fsC1 "vocals")
        (pjoin "out/htdemucs/song" ("vocals" ++ ".wav")) = false) :=
  ⟨⟨by decide, by decide⟩,
    C1_corrected semAllSilent fsC1 "out/htdemucs/song" "vocals" "vocals"
      "tmp.wav" 7 (by decide) (by decide)⟩

/-- C2: evaluation of the embedded fuse_tracks route shows the scratch
stem surviving the failure path of fuse_stems (the cleanup loop runs
only on success), while the success path does delete it — the code bug
the claim and the spec (section 9) describe. -/
theorem C2_theorem :
    ((fuse_tracks cfgC2 fsC2 [("vocals", ⟨"m.wav", 1, false⟩)] "m.wav").2 =
        FuseResult.fuseFailed ∧
      fsExists (fuse_tracks cfgC2 fsC2
        [("vocals", ⟨"m.wav", 1, false⟩)] "m.wav").1
        "temp_fusion/m.wav_vocals.wav" = true) ∧
    ((fuse_tracks cfgC2ok fsC2 [("vocals", ⟨"m.wav", 1, false⟩)] "m.wav").2 =
        FuseResult.fused "fused_tracks/fused_x.mp3" ∧
      fsExists (fuse_tracks cfgC2ok fsC2
        [("vocals", ⟨"m.wav", 1, false⟩)] "m.wav").1
        "temp_fusion/m.wav_vocals.wav" = false) := by
  decide

/-- C3 counterexample: on an engine failure the pipeline emits an error
event and the completion sentinel still follows it, so the error event
is not terminal. -/
theorem C3_counterexample :
    generate_progress "up/song.wav" "u" "o" 4 "htdemucs" false envFail =
      [Ev.line "l1", Ev.line "ERROR: Demucs processing error: boom",
        Ev.complete "u" "o"] ∧
    isErrorEv (Ev.line "ERROR: Demucs processing error: boom") = true ∧
    (generate_progress "up/song.wav" "u" "o" 4 "htdemucs" false
      envFail).getLast? = some (Ev.complete "u" "o") := by
  decide

/-- C9 counterexample: a stem count of 5 performs no engine invocation
and lists no artifacts, but there is no clean rejection: the run
crashes in its results-reporting step, which surfaces as an
unexpected-error event, and the completion sentinel is still emitted
after it. -/
theorem C9_counterexample :
    (separate_audio_ultra "up/song.wav" 5 "m" true envIdle).invocations =
      [] ∧
    get_separation_results fsC1 "up/song.wav" "out" 5 "m" = [] ∧
    generate_progress "up/song.wav" "u" "o" 5 "m" true envIdle =
      [Ev.line ("ERROR: An unexpected error occurred: " ++
        unboundLocalMsg), Ev.complete "u" "o"] := by
  decide

lemma runDemucsRaises_true (rc : Int) (h0 : rc ≠ 0) (h9 : rc ≠ -9) :
    runDemucsRaises rc = true := by
  simp [runDemucsRaises, h0, h9]

lemma runDemucsRaises_neg9 : runDemucsRaises (-9) = false := by
  decide

/-- C4: an engine exit code that is non-zero and not -9 makes
_run_demucs raise a CalledProcessError carrying the captured stderr, and
separate_audio_ultra turns it into an ERROR event carrying that text; a
kill-induced exit of -9 raises nothing and adds no error event. -/
theorem C4_engine_exit_codes (eng : EngineResult)
    (input_file model : String) (enhance : Bool) (env : PipelineEnv)
    (henv : env.pass1 = eng) (hin : env.inputExists = true) :
    ((eng.rc ≠ 0 ∧ eng.rc ≠ -9) →
      (runDemucsResult eng).2 = some ⟨eng.rc, eng.stderr⟩ ∧
      (separate_audio_ultra input_file 4 model enhance env).events =
        eng.lines.map Ev.line ++
          [Ev.line ("ERROR: Demucs processing error: " ++ eng.stderr)]) ∧
    (eng.rc = -9 →
      (runDemucsResult eng).2 = none ∧
      (separate_audio_ultra input_file 4 model enhance env).events =
        eng.lines.map Ev.line) := by
  subst henv
  constructor
  · rintro ⟨h0, h9⟩
    have hr : runDemucsRaises env.pass1.rc = true :=
      runDemucsRaises_true _ h0 h9
    constructor
    · simp [runDemucsResult, hr]
    · have h9b : (env.pass1.rc != -9) = true := bne_iff_ne.mpr h9
      unfold separate_audio_ultra sepBody sep4Body
      simp [hin, runDemucsResult, hr, h9b]
  · intro h9
    have hr : runDemucsRaises env.pass1.rc = false := by
      rw [h9]
      exact runDemucsRaises_neg9
    constructor
    · simp [runDemucsResult, hr]
    · unfold separate_audio_ultra sepBody sep4Body
      simp [hin, runDemucsResult, hr]

/-- Witness instantiating C4 on envFail (exit code 1, stderr boom). -/
theorem C4_engine_exit_codes_witness :
    (envFail.pass1 = envFail.pass1 ∧ envFail.inputExists = true) ∧
    (((envFail.pass1.rc ≠ 0 ∧ envFail.pass1.rc ≠ -9) →
      (runDemucsResult envFail.pass1).2 =
        some ⟨envFail.pass1.rc, envFail.pass1.stderr⟩ ∧
      (separate_audio_ultra "up/song.wav" 4 "m" false envFail).events =
        envFail.pass1.lines.map Ev.line ++
          [Ev.line ("ERROR: Demucs processing error: " ++
            envFail.pass1.stderr)]) ∧
    (envFail.pass1.rc = -9 →
      (runDemucsResult envFail.pass1).2 = none ∧
      (separate_audio_ultra "up/song.wav" 4 "m" false envFail).events =
        envFail.pass1.lines.map Ev.line)) :=
  ⟨⟨rfl, by decide⟩,
    C4_engine_exit_codes envFail.pass1 "up/song.wav" "m" false envFail
      rfl (by decide)⟩

lemma runRegistry_append (pid : Nat) (reg : Registry)
    (l1 l2 : List RStep) :
    runRegistry pid reg (l1 ++ l2) =
      runRegistry pid (runRegistry pid reg l1) l2 :=
  List.foldl_append _ _ _ _

lemma runRegistry_yields (pid : Nat) (reg : Registry) (ls : List String) :
    runRegistry pid reg (ls.map RStep.yieldLine) = reg := by
  induction ls with
  | nil => rfl
  | cons s rest ih =>
    simp only [List.map, runRegistry, List.foldl]
    exact ih

lemma lookup_regErase (reg : Registry) (k : String) :
    List.lookup k (regErase reg k) = none := by
  induction reg with
  | nil => rfl
  | cons e rest ih =>
    unfold regErase at *
    by_cases h : e.1 = k
    · simp only [List.filter, h, bne_self_eq_false]
      exact ih
    · have hb : (e.1 != k) = true := bne_iff_ne.mpr h
      simp only [List.filter, hb]
      rw [List.lookup]
      have : (k == e.1) = false := beq_eq_false_iff_ne.mpr (Ne.symm h)
      simp only [this]
      exact ih

/-- C5: for every run of _run_demucs with a job key, the first step of
the trace is the registration of the key (so it precedes every yielded
line); whatever the termination path — exhaustion, engine failure,
cancellation, or early abandonment — and whatever was previously in the
registry, the final registry holds no entry for the key; and the process
is not live once the generator unwound. -/
theorem C5_registry_lifecycle (k : String) (pid : Nat) (reg : Registry)
    (eng : EngineResult) (outcome : RunOutcome) (stillLive : Bool) :
    (runDemucsSteps (some k) eng outcome stillLive).head? =
      some (RStep.register k) ∧
    List.lookup k (runRegistry pid reg
      (runDemucsSteps (some k) eng outcome stillLive)) = none ∧
    ¬ procLiveAfter stillLive
      (runDemucsSteps (some k) eng outcome stillLive) := by
  refine ⟨rfl, ?_, ?_⟩
  · unfold runDemucsSteps
    rw [runRegistry_append, runRegistry_append, runRegistry_append,
      runRegistry_append]
    have hlast : ∀ r : Registry,
        List.lookup k (runRegistry pid
          (runRegistry pid r [RStep.deregister k])
          (if stillLive then [RStep.kill] else [])) = none := by
      intro r
      cases stillLive
      · exact lookup_regErase r k
      · exact lookup_regErase r k
    exact hlast _
  · rintro ⟨h1, h2⟩
    apply h2
    unfold runDemucsSteps
    rw [h1]
    simp

lemma countP_append (p : Ev → Bool) (l1 l2 : List Ev) :
    countP p (l1 ++ l2) = countP p l1 + countP p l2 := by
  simp [countP, List.filter_append]

lemma countP_error_lines (ls : List String)
    (h : ∀ l ∈ ls, "ERROR".data.isPrefixOf l.data = false) :
    countP isErrorEv (ls.map Ev.line) = 0 := by
  unfold countP
  rw [List.length_eq_zero, List.filter_eq_nil_iff]
  intro e he
  rcases List.mem_map.mp he with ⟨l, hl, rfl⟩
  simp [isErrorEv, h l hl]

lemma countP_complete_lines (ls : List String) :
    countP isCompleteEv (ls.map Ev.line) = 0 := by
  unfold countP
  rw [List.length_eq_zero, List.filter_eq_nil_iff]
  intro e he
  rcases List.mem_map.mp he with ⟨l, _, rfl⟩
  simp [isCompleteEv]

lemma getLast?_append_single (l : List Ev) (a : Ev) :
    (l ++ [a]).getLast? = some a := by
  rw [List.getLast?_concat]

lemma demucs_error_is_error (s : String) :
    isErrorEv (Ev.line ("ERROR: Demucs processing error: " ++ s)) =
      true := by
  unfold isErrorEv
  simp only [List.isPrefixOf_iff_prefix]
  have hd : (("ERROR: Demucs processing error: " : String) ++ s).data =
      "ERROR".data ++ (": Demucs processing error: ".data ++ s.data) := by
    cases s
    rfl
  rw [hd]
  exact List.prefix_append _ _

lemma countP_eq_zero (p : Ev → Bool) (evs : List Ev)
    (h : ∀ e ∈ evs, p e = false) : countP p evs = 0 := by
  unfold countP
  rw [List.length_eq_zero, List.filter_eq_nil_iff]
  intro e he
  simp [h e he]

lemma linesEv_append (l1 l2 : List Ev)
    (h1 : ∀ e ∈ l1, ∃ s, e = Ev.line s)
    (h2 : ∀ e ∈ l2, ∃ s, e = Ev.line s) :
    ∀ e ∈ l1 ++ l2, ∃ s, e = Ev.line s := by
  intro e he
  rcases List.mem_append.mp he with h | h
  exacts [h1 e h, h2 e h]

lemma linesEv_map (ls : List String) :
    ∀ e ∈ ls.map Ev.line, ∃ s, e = Ev.line s := by
  intro e he
  rcases List.mem_map.mp he with ⟨s, _, rfl⟩
  exact ⟨s, rfl⟩

lemma linesEv_single (t : String) :
    ∀ e ∈ [Ev.line t], ∃ s, e = Ev.line s := by
  intro e he
  rcases List.mem_singleton.mp he with rfl
  exact ⟨t, rfl⟩

lemma linesEv_ite (b : Bool) (t : String) :
    ∀ e ∈ (if b then [Ev.line t] else []), ∃ s, e = Ev.line s := by
  cases b
  · intro e he
    exact absurd he (List.not_mem_nil e)
  · exact linesEv_single t

lemma sep8Loop_events_lines (jobId : String) (env : PipelineEnv) :
    ∀ stems, ∀ e ∈ (sep8Loop jobId env stems).1, ∃ s, e = Ev.line s := by
  intro stems
  induction stems with
  | nil =>
    intro e he
    exact absurd he (List.not_mem_nil e)
  | cons stem rest ih =>
    unfold sep8Loop
    split
    · dsimp only
      split
      · exact linesEv_map _
      · exact linesEv_append _ _ (linesEv_map _) ih
    · exact ih

lemma sepBody_events_lines (c : Nat) (model jobId : String)
    (env : PipelineEnv) (enhance : Bool) :
    ∀ e ∈ (sepBody c model jobId env enhance).events,
      ∃ s, e = Ev.line s := by
  unfold sepBody
  split
  · exact linesEv_map _
  · split
    · unfold sep6Body
      dsimp only
      split
      · exact linesEv_append _ _ (linesEv_single _) (linesEv_map _)
      · split
        · split
          · exact linesEv_append _ _
              (linesEv_append _ _
                (linesEv_append _ _ (linesEv_single _) (linesEv_map _))
                (linesEv_single _))
              (linesEv_map _)
          · exact linesEv_append _ _
              (linesEv_append _ _
                (linesEv_append _ _
                  (linesEv_append _ _ (linesEv_single _) (linesEv_map _))
                  (linesEv_single _))
                (linesEv_map _))
              (linesEv_ite _ _)
        · exact linesEv_append _ _ (linesEv_single _) (linesEv_map _)
    · split
      · unfold sep8Body
        dsimp only
        split
        · exact linesEv_map _
        · split
          · split
            · exact linesEv_append _ _
                (linesEv_append _ _ (linesEv_map _) (linesEv_single _))
                (sep8Loop_events_lines _ _ _)
            · exact linesEv_append _ _
                (linesEv_append _ _
                  (linesEv_append _ _ (linesEv_map _) (linesEv_single _))
                  (sep8Loop_events_lines _ _ _))
                (linesEv_ite _ _)
          · exact linesEv_map _
      · intro e he
        exact absurd he (List.not_mem_nil e)

lemma runDemucsResult_err_ne (eng : EngineResult) (e : EngErr)
    (h : (runDemucsResult eng).2 = some e) : (e.rc != -9) = true := by
  unfold runDemucsResult at h
  dsimp only at h
  split at h
  · next hr =>
    cases Option.some.inj h
    unfold runDemucsRaises at hr
    rw [Bool.and_eq_true] at hr
    exact hr.2
  · exact absurd h (by simp)

lemma sep8Loop_err_ne (jobId : String) (env : PipelineEnv) :
    ∀ stems (e : EngErr), (sep8Loop jobId env stems).2.2 = some e →
      (e.rc != -9) = true := by
  intro stems
  induction stems with
  | nil =>
    intro e h
    exact absurd h (by simp [sep8Loop])
  | cons stem rest ih =>
    intro e h
    unfold sep8Loop at h
    split at h
    · dsimp only at h
      split at h
      · next e' heq =>
        dsimp only at h
        cases Option.some.inj h
        exact runDemucsResult_err_ne _ _ heq
      · dsimp only at h
        exact ih e h
    · exact ih e h

lemma sepBody_err_ne (c : Nat) (model jobId : String)
    (env : PipelineEnv) (enhance : Bool) (e : EngErr)
    (h : (sepBody c model jobId env enhance).err = some e) :
    (e.rc != -9) = true := by
  unfold sepBody at h
  split at h
  · exact runDemucsResult_err_ne _ _ h
  · split at h
    · unfold sep6Body at h
      dsimp only at h
      split at h
      · next e' heq =>
        dsimp only at h
        cases Option.some.inj h
        exact runDemucsResult_err_ne _ _ heq
      · split at h
        · split at h
          · next e' heq =>
            dsimp only at h
            cases Option.some.inj h
            exact runDemucsResult_err_ne _ _ heq
          · exact absurd h (by simp)
        · exact absurd h (by simp)
    · split at h
      · unfold sep8Body at h
        dsimp only at h
        split at h
        · next e' heq =>
          dsimp only at h
          cases Option.some.inj h
          exact runDemucsResult_err_ne _ _ heq
        · split at h
          · split at h
            · next e' heq =>
              dsimp only at h
              cases Option.some.inj h
              exact sep8Loop_err_ne jobId env stems_to_separate _ heq
            · exact absurd h (by simp)
          · exact absurd h (by simp)
      · exact absurd h (by simp)

lemma ultra_events_of_none (input_file model : String) (enhance : Bool)
    (env : PipelineEnv) (c : Nat) (hin : env.inputExists = true)
    (hc : c = 4 ∨ c = 6 ∨ c = 8)
    (hnone : (sepBody c model (pathName input_file) env enhance).err =
      none) :
    (separate_audio_ultra input_file c model enhance env).events =
      (sepBody c model (pathName input_file) env enhance).events := by
  unfold separate_audio_ultra
  rw [if_neg (by simp [hin])]
  dsimp only
  rw [hnone]
  dsimp only
  rw [if_pos hc]

lemma ultra_events_of_some (input_file model : String) (enhance : Bool)
    (env : PipelineEnv) (c : Nat) (e : EngErr)
    (hin : env.inputExists = true)
    (he : (sepBody c model (pathName input_file) env enhance).err =
      some e) :
    (separate_audio_ultra input_file c model enhance env).events =
      (sepBody c model (pathName input_file) env enhance).events ++
        [Ev.line ("ERROR: Demucs processing error: " ++ e.stderr)] := by
  have hne : (e.rc != -9) = true :=
    sepBody_err_ne c model (pathName input_file) env enhance e he
  unfold separate_audio_ultra
  rw [if_neg (by simp [hin])]
  dsimp only
  rw [he]
  dsimp only
  rw [if_pos hne]

/-- C3 as amended: for every pipeline run with a stem count in 4, 6 or
8, on success exactly one completion sentinel is emitted, as the final
event, with no error event; on an unrecoverable engine failure in any
pass exactly one error event is emitted, but the completion sentinel
still follows it as the final event (the failure run does not end on
the error event). -/
theorem C3_corrected (input_file u o model : String) (enhance : Bool)
    (env : PipelineEnv) (c : Nat) (hc : c = 4 ∨ c = 6 ∨ c = 8)
    (hin : env.inputExists = true)
    (hclean : ∀ e ∈ (sepBody c model (pathName input_file) env
      enhance).events, isErrorEv e = false) :
    ((sepBody c model (pathName input_file) env enhance).err = none →
      countP isErrorEv (generate_progress input_file u o c model enhance
        env) = 0 ∧
      countP isCompleteEv (generate_progress input_file u o c model
        enhance env) = 1 ∧
      (generate_progress input_file u o c model enhance env).getLast? =
        some (Ev.complete u o)) ∧
    (∀ e : EngErr,
      (sepBody c model (pathName input_file) env enhance).err = some e →
      countP isErrorEv (generate_progress input_file u o c model enhance
        env) = 1 ∧
      countP isCompleteEv (generate_progress input_file u o c model
        enhance env) = 1 ∧
      (generate_progress input_file u o c model enhance env).getLast? =
        some (Ev.complete u o)) := by
  have hlines := sepBody_events_lines c model (pathName input_file) env
    enhance
  have herr0 : countP isErrorEv
      (sepBody c model (pathName input_file) env enhance).events = 0 :=
    countP_eq_zero _ _ hclean
  have hcomp0 : countP isCompleteEv
      (sepBody c model (pathName input_file) env enhance).events = 0 := by
    apply countP_eq_zero
    intro e he
    rcases hlines e he with ⟨s, rfl⟩
    rfl
  constructor
  · intro hnone
    have hev := ultra_events_of_none input_file model enhance env c hin
      hc hnone
    unfold generate_progress
    rw [hev]
    refine ⟨?_, ?_, getLast?_append_single _ _⟩
    · rw [countP_append, herr0]
      rfl
    · rw [countP_append, hcomp0]
      rfl
  · intro e he
    have hev := ultra_events_of_some input_file model enhance env c e hin
      he
    unfold generate_progress
    rw [hev]
    refine ⟨?_, ?_, getLast?_append_single _ _⟩
    · rw [countP_append, countP_append, herr0]
      simp [countP, demucs_error_is_error, isErrorEv]
    · rw [countP_append, countP_append, hcomp0]
      simp [countP, isCompleteEv]

/-- Witness instantiating C3_corrected on a 6-stem run over envIdle
(two passes, milestones, enhancement event). -/
theorem C3_corrected_witness :
    (((6 : Nat) = 4 ∨ (6 : Nat) = 6 ∨ (6 : Nat) = 8) ∧
      envIdle.inputExists = true ∧
      (∀ e ∈ (sepBody 6 "m" (pathName "up/song.wav") envIdle
        true).events, isErrorEv e = false)) ∧
    (((sepBody 6 "m" (pathName "up/song.wav") envIdle true).err = none →
      countP isErrorEv (generate_progress "up/song.wav" "u" "o" 6 "m"
        true envIdle) = 0 ∧
      countP isCompleteEv (generate_progress "up/song.wav" "u" "o" 6 "m"
        true envIdle) = 1 ∧
      (generate_progress "up/song.wav" "u" "o" 6 "m" true
        envIdle).getLast? = some (Ev.complete "u" "o")) ∧
    (∀ e : EngErr,
      (sepBody 6 "m" (pathName "up/song.wav") envIdle true).err =
        some e →
      countP isErrorEv (generate_progress "up/song.wav" "u" "o" 6 "m"
        true envIdle) = 1 ∧
      countP isCompleteEv (generate_progress "up/song.wav" "u" "o" 6 "m"
        true envIdle) = 1 ∧
      (generate_progress "up/song.wav" "u" "o" 6 "m" true
        envIdle).getLast? = some (Ev.complete "u" "o"))) :=
  ⟨⟨by decide, by decide, by decide⟩,
    C3_corrected "up/song.wav" "u" "o" "m" true envIdle 6 (by decide)
      (by decide) (by decide)⟩


/-- C9 as amended: a stem count outside 4, 6 and 8 leads to no engine
invocation and an empty artifact listing, but the request is not
cleanly rejected: the pipeline reaches its results-reporting step,
which raises UnboundLocalError on the unassigned track_dir; the generic
except handler surfaces that as exactly one unexpected-error event, and
the completion sentinel still follows it. -/
theorem C9_corrected (input_file u o out model : String)
    (enhance : Bool) (env : PipelineEnv) (fs : Fs) (c : Nat)
    (hc : c ≠ 4 ∧ c ≠ 6 ∧ c ≠ 8) (hin : env.inputExists = true) :
    (separate_audio_ultra input_file c model enhance env).invocations =
      [] ∧
    get_separation_results fs input_file out c model = [] ∧
    generate_progress input_file u o c model enhance env =
      [Ev.line ("ERROR: An unexpected error occurred: " ++
        unboundLocalMsg), Ev.complete u o] := by
  obtain ⟨h4, h6, h8⟩ := hc
  refine ⟨?_, ?_, ?_⟩
  · unfold separate_audio_ultra sepBody
    simp [hin, h4, h6, h8]
  · unfold get_separation_results
    simp [h4, h6, h8]
  · unfold generate_progress separate_audio_ultra sepBody
    simp [hin, h4, h6, h8]

/-- Witness instantiating C9_corrected at stem count 5. -/
theorem C9_corrected_witness :
    (((5 : Nat) ≠ 4 ∧ (5 : Nat) ≠ 6 ∧ (5 : Nat) ≠ 8) ∧
      envIdle.inputExists = true) ∧
    ((separate_audio_ultra "up/song.wav" 5 "m" true
        envIdle).invocations = [] ∧
      get_separation_results fsC1 "up/song.wav" "out" 5 "m" = [] ∧
      generate_progress "up/song.wav" "u" "o" 5 "m" true envIdle =
        [Ev.line ("ERROR: An unexpected error occurred: " ++
          unboundLocalMsg), Ev.complete "u" "o"]) :=
  ⟨⟨by decide, by decide⟩,
    C9_corrected "up/song.wav" "u" "o" "out" "m" true envIdle fsC1 5
      ⟨by decide, by decide, by decide⟩ (by decide)⟩

/-- C6: in a 6-stem run whose other stem is absent after pass 1, the
second pass and the assembly are skipped (one engine invocation, no
assembly) and the pipeline still terminates successfully: no error event
and the completion sentinel last. -/
theorem C6_other_absent (input_file u o model : String) (enhance : Bool)
    (env : PipelineEnv) (hin : env.inputExists = true)
    (hother : env.otherExists = false) (hok : env.pass1.rc = 0)
    (hclean : ∀ l ∈ env.pass1.lines,
      "ERROR".data.isPrefixOf l.data = false) :
    (separate_audio_ultra input_file 6 model enhance env).invocations =
      [⟨model, none, pathName input_file⟩] ∧
    (separate_audio_ultra input_file 6 model enhance env).assembled =
      false ∧
    countP isErrorEv (generate_progress input_file u o 6 model enhance
      env) = 0 ∧
    (generate_progress input_file u o 6 model enhance env).getLast? =
      some (Ev.complete u o) := by
  have hr : runDemucsRaises env.pass1.rc = false := by
    simp [runDemucsRaises, hok]
  have hu : separate_audio_ultra input_file 6 model enhance env =
      { events := [Ev.line "Running 6-component separation (Pass 1/2)..."]
          ++ env.pass1.lines.map Ev.line,
        invocations := [⟨model, none, pathName input_file⟩],
        assembled := false } := by
    unfold separate_audio_ultra sepBody sep6Body
    simp [hin, runDemucsResult, hr, hother]
  refine ⟨by rw [hu], by rw [hu], ?_, ?_⟩
  · unfold generate_progress
    rw [hu]
    simp only []
    rw [countP_append, countP_append, countP_error_lines _ hclean]
    simp [countP, isErrorEv]
  · unfold generate_progress
    rw [hu]
    exact getLast?_append_single _ _

/-- Witness instantiating C6 on envNoOther. -/
theorem C6_other_absent_witness :
    (envNoOther.inputExists = true ∧ envNoOther.otherExists = false ∧
      envNoOther.pass1.rc = 0 ∧
      (∀ l ∈ envNoOther.pass1.lines,
        "ERROR".data.isPrefixOf l.data = false)) ∧
    ((separate_audio_ultra "up/song.wav" 6 "m" true
        envNoOther).invocations =
      [⟨"m", none, pathName "up/song.wav"⟩] ∧
    (separate_audio_ultra "up/song.wav" 6 "m" true envNoOther).assembled =
      false ∧
    countP isErrorEv (generate_progress "up/song.wav" "u" "o" 6 "m" true
      envNoOther) = 0 ∧
    (generate_progress "up/song.wav" "u" "o" 6 "m" true
      envNoOther).getLast? = some (Ev.complete "u" "o")) :=
  ⟨⟨by decide, by decide, by decide, by decide⟩,
    C6_other_absent "up/song.wav" "u" "o" "m" true envNoOther (by decide)
      (by decide) (by decide) (by decide)⟩

lemma sep8Loop_model (jobId : String) (env : PipelineEnv) :
    ∀ (stems : List String) (inv : Invocation),
      inv ∈ (sep8Loop jobId env stems).2.1 →
        inv.model = "htdemucs_ft" := by
  intro stems
  induction stems with
  | nil =>
    intro inv h
    exact absurd h (List.not_mem_nil inv)
  | cons stem rest ih =>
    intro inv h
    unfold sep8Loop at h
    split at h
    · dsimp only at h
      split at h
      · rcases List.mem_singleton.mp h with rfl
        rfl
      · rcases List.mem_cons.mp h with rfl | h2
        · rfl
        · exact ih inv h2
    · exact ih inv h

lemma sep8Body_model (jobId : String) (env : PipelineEnv)
    (enhance : Bool) (inv : Invocation)
    (h : inv ∈ (sep8Body jobId env enhance).invocations) :
    inv.model = "htdemucs_ft" := by
  unfold sep8Body at h
  dsimp only at h
  split at h
  · rcases List.mem_singleton.mp h with rfl
    rfl
  · split at h
    · split at h
      · rcases List.mem_cons.mp h with rfl | h2
        · rfl
        · exact sep8Loop_model jobId env stems_to_separate inv h2
      · rcases List.mem_cons.mp h with rfl | h2
        · rfl
        · exact sep8Loop_model jobId env stems_to_separate inv h2
    · rcases List.mem_singleton.mp h with rfl
      rfl

/-- C7: every engine invocation of an 8-stem run — pass 1 and every
pass-2 sub-invocation — uses the model htdemucs_ft, whatever model the
caller requested. -/
theorem C7_model_pinned (input_file model : String) (enhance : Bool)
    (env : PipelineEnv) (inv : Invocation)
    (h : inv ∈ (separate_audio_ultra input_file 8 model enhance
      env).invocations) :
    inv.model = "htdemucs_ft" := by
  have hb : ∀ inv2 : Invocation,
      inv2 ∈ (sepBody 8 model (pathName input_file) env
        enhance).invocations → inv2.model = "htdemucs_ft" := by
    intro inv2 h2
    unfold sepBody at h2
    rw [if_neg (by decide : ¬((8 : Nat) = 4)),
      if_neg (by decide : ¬((8 : Nat) = 6)), if_pos rfl] at h2
    exact sep8Body_model (pathName input_file) env enhance inv2 h2
  unfold separate_audio_ultra at h
  split at h
  · exact absurd h (List.not_mem_nil inv)
  · dsimp only at h
    split at h
    · split at h
      · exact hb inv h
      · exact hb inv h
    · exact hb inv h

/-- Witness instantiating C7 on envIdle with requested model mdx. -/
theorem C7_model_pinned_witness :
    ((⟨"htdemucs_ft", none, "song.wav"⟩ : Invocation) ∈
      (separate_audio_ultra "up/song.wav" 8 "mdx" true
        envIdle).invocations) ∧
    (⟨"htdemucs_ft", none, "song.wav"⟩ : Invocation).model =
      "htdemucs_ft" :=
  ⟨by decide,
    C7_model_pinned "up/song.wav" "mdx" true envIdle
      ⟨"htdemucs_ft", none, "song.wav"⟩ (by decide)⟩

end MusicDeconstructor
